import Mathlib

/-!
Shallow embedding of `cocos/renderer/ui/renderData.ts`.

JS numbers are modelled as integers (`Int`): the operations verified here
use numbers only for storage, equality comparison and the zero default, so
the integer model is faithful on every non-NaN input.  Mutable objects are
modelled by value: each operation takes the state it reads and returns the
state it produces, and the module-level shared pools are threaded through
explicitly as extra arguments and results.
-/

/-- The RGBA colour value type (external collaborator; only its default
WHITE constant is relevant to `RenderData`). -/
structure Color where
  r : Int
  g : Int
  b : Int
  a : Int
deriving DecidableEq, Repr

/-- `Color.WHITE` from the value-types module. -/
def Color.WHITE : Color := ⟨255, 255, 255, 255⟩

/-- `IRenderData`: one vertex record, default-initialized to the origin,
zero UV and white colour (source lines 6-13). -/
structure IRenderData where
  x : Int := 0
  y : Int := 0
  z : Int := 0
  u : Int := 0
  v : Int := 0
  color : Color := Color.WHITE
deriving DecidableEq, Repr

/-- The state of a `RenderData` instance: the fields of `BaseRenderData`
(source lines 15-19: `material`, `vertexCount`, `indiceCount`) together
with the fields declared in `RenderData` itself (source lines 60-67), each
with its declared initializer.  The opaque `Material` reference is
modelled as an identity (`Option Nat`, `none` for the JS `null`). -/
structure RenderData where
  material : Option Nat := none
  vertexCount : Int := 0
  indiceCount : Int := 0
  uvDirty : Bool := true
  vertDirty : Bool := true
  datas : List IRenderData := []
  indices : List Int := []
  pivotX : Int := 0
  pivotY : Int := 0
  width : Int := 0
  height : Int := 0
deriving DecidableEq, Repr

/-- `new RenderData()`: every field takes its declared initializer. -/
def RenderData.new : RenderData := {}

instance : Inhabited RenderData := ⟨RenderData.new⟩

/-- Modelled from the spec: the generic recycling-pool primitive
(`RecyclePool` of `cocos/3d/memop/recycle-pool`, an external collaborator
whose source is not part of this fragment).  Per the spec it is
factory-constructed, has an indexable backing storage, a size, an
`add`/acquire operation handing out a new-or-reused element, and a
`removeAt`/release operation removing the element at a given position
from the live region while the object is retained in the backing storage
for reuse.  The factory is a constant (`() => new ...()`), stored here as
the value `fn`.  `count` is the number of live elements (the pool's
`length`); `data` is the backing storage. -/
structure RecyclePool (α : Type) where
  fn : α
  data : List α
  count : Nat
deriving DecidableEq, Repr

/-- Modelled from the spec: constructing a pool with an initial capacity
pre-filled by the factory. -/
def RecyclePool.new (fn : α) (size : Nat) : RecyclePool α :=
  ⟨fn, List.replicate size fn, 0⟩

/-- The pool's `length` getter: the number of live elements. -/
def RecyclePool.length (p : RecyclePool α) : Nat := p.count

/-- Modelled from the spec: `add` (acquire) returns the element stored at
position `count` of the backing storage — a reused element when spare
capacity exists, a freshly factory-made one otherwise — and the live
count grows by one. -/
def RecyclePool.add (p : RecyclePool α) : α × RecyclePool α :=
  if p.count < p.data.length then
    (p.data.getD p.count p.fn, { p with count := p.count + 1 })
  else
    (p.fn, { p with data := p.data ++ [p.fn], count := p.count + 1 })

/-- Modelled from the spec: `removeAt idx` removes the element at position
`idx` from the live region.  The spec leaves the compaction strategy open
(shift-left vs swap-with-last); we model swap-with-last retention, under
which the removed element stays in the backing storage at position
`count - 1`.  Removal at an index outside the live region is undefined
behaviour per the spec and modelled as a no-op. -/
def RecyclePool.removeAt (p : RecyclePool α) (idx : Nat) : RecyclePool α :=
  if p.count ≤ idx then p
  else
    { p with
      data := (p.data.set idx (p.data.getD (p.count - 1) p.fn)).set
        (p.count - 1) (p.data.getD idx p.fn)
      count := p.count - 1 }

/-- The grow loop of the `dataLength` setter, source lines 33-35:
`for (i = value; i < length; i++) data[i] = _dataPool.add();`.
Each assignment happens at index `i` equal to the current array length,
so each iteration appends the acquired record; the loop body runs
`length - value` times.  The iteration count is the structural recursion
fuel; the shared vertex-record pool is threaded through. -/
def growLoopAux : Nat → List IRenderData → RecyclePool IRenderData →
    List IRenderData × RecyclePool IRenderData
  | 0, data, pool => (data, pool)
  | n + 1, data, pool =>
      growLoopAux n (data ++ [(RecyclePool.add pool).1]) (RecyclePool.add pool).2

/-- The grow loop with the source's loop bounds `i = value; i < length`. -/
def growLoop (data : List IRenderData) (pool : RecyclePool IRenderData)
    (i target : Nat) : List IRenderData × RecyclePool IRenderData :=
  growLoopAux (target - i) data pool

/-- The shrink loop of the `dataLength` setter, source lines 36-39:
`for (i = value; i > length; i--) { _dataPool.removeAt(i); data.splice(i, 1); }`.
`data.splice(i, 1)` removes the element at index `i` when `i` is in
range and removes nothing otherwise, which is exactly `List.eraseIdx`.
The iteration count `i - target` is the structural recursion fuel and the
loop counter `i` is threaded explicitly. -/
def shrinkLoopAux : Nat → List IRenderData → RecyclePool IRenderData → Nat →
    List IRenderData × RecyclePool IRenderData
  | 0, data, pool, _ => (data, pool)
  | n + 1, data, pool, i =>
      shrinkLoopAux n (data.eraseIdx i) (pool.removeAt i) (i - 1)

/-- The shrink loop with the source's loop bounds `i = value; i > length`. -/
def shrinkLoop (data : List IRenderData) (pool : RecyclePool IRenderData)
    (i target : Nat) : List IRenderData × RecyclePool IRenderData :=
  shrinkLoopAux (i - target) data pool i

/-- The `dataLength` setter (source lines 27-41): when the requested
length differs from the current one, run the grow loop and then the
shrink loop, both starting at `value`, the length `datas` had on entry.
At most one of the two loops iterates.  The shared `_dataPool` is an
explicit argument and result. -/
def RenderData.setDataLength (rd : RenderData) (pool : RecyclePool IRenderData)
    (len : Nat) : RenderData × RecyclePool IRenderData :=
  if rd.datas.length ≠ len then
    let value := rd.datas.length
    let g := growLoop rd.datas pool value len
    let s := shrinkLoop g.1 g.2 value len
    ({ rd with datas := s.1 }, s.2)
  else
    (rd, pool)

/-- The `dataLength` getter (source lines 23-25). -/
def RenderData.dataLength (rd : RenderData) : Nat := rd.datas.length

/-- `updateSizeNPivot` (source lines 69-80): when any of the four
parameters differs from the stored value, store all four and set
`vertDirty`; otherwise do nothing. -/
def RenderData.updateSizeNPivot (rd : RenderData) (width height pivotX pivotY : Int) :
    RenderData :=
  if width ≠ rd.width ∨ height ≠ rd.height ∨ pivotX ≠ rd.pivotX ∨ pivotY ≠ rd.pivotY then
    { rd with
      width := width
      height := height
      pivotX := pivotX
      pivotY := pivotY
      vertDirty := true }
  else
    rd

/-- `clear` (source lines 82-94): truncate both sequences, zero pivot and
size, raise both dirty flags, drop the material and zero both counts. -/
def RenderData.clear (rd : RenderData) : RenderData :=
  { rd with
    datas := []
    indices := []
    pivotX := 0
    pivotY := 0
    width := 0
    height := 0
    uvDirty := true
    vertDirty := true
    material := none
    vertexCount := 0
    indiceCount := 0 }

/-- The handle returned by the static `RenderData.add` (source lines
47-53): the slot index `pooID` with the acquired instance. -/
structure Handle where
  pooID : Nat
  data : RenderData
deriving DecidableEq, Repr

/-- Static `RenderData.add` (source lines 47-53): acquire an instance
from the shared `_pool` and return `{ pooID: _pool.length - 1, data }`.
The shared pool is an explicit argument and result. -/
def RenderData.add (p : RecyclePool RenderData) : Handle × RecyclePool RenderData :=
  let r := RecyclePool.add p
  (⟨r.2.length - 1, r.1⟩, r.2)

/-- Static `RenderData.remove` (source lines 55-58):
`_pool.data[idx].clear(); _pool.removeAt(idx);` — clear the instance
stored at backing position `idx`, then remove that slot from the pool.
The in-place `clear()` on the stored object is modelled by writing the
cleared state back into the backing storage at `idx`. -/
def RenderData.remove (p : RecyclePool RenderData) (idx : Nat) : RecyclePool RenderData :=
  RecyclePool.removeAt
    { p with data := p.data.set idx ((p.data.getD idx RenderData.new).clear) } idx

/-- The module-level shared vertex-record pool `_dataPool`
(source lines 97-99). -/
def initDataPool : RecyclePool IRenderData := RecyclePool.new {} 128

/-- The module-level shared `RenderData` pool `_pool`
(source lines 101-103). -/
def initPool : RecyclePool RenderData := RecyclePool.new RenderData.new 32

/-! ### Concrete states used in counterexamples and witnesses -/

/-- A default vertex record. -/
def irec : IRenderData := {}

/-- A `RenderData` instance holding two vertex records. -/
def rdTwo : RenderData := { datas := [irec, irec] }

/-- A vertex-record pool state with two live records (as after the two
acquisitions that filled `rdTwo`). -/
def dp2 : RecyclePool IRenderData :=
  { fn := irec, data := List.replicate 4 irec, count := 2 }

/-- A `RenderData` pool state with one live instance and one spare slot. -/
def rp1 : RecyclePool RenderData :=
  { fn := RenderData.new, data := [RenderData.new, RenderData.new], count := 1 }

/-! ### Helper lemmas -/

/-- `clear` overwrites every field, so its result is the fresh default
instance regardless of the prior state. -/
theorem clear_eq_new (rd : RenderData) : rd.clear = RenderData.new := rfl

/-- The `dataLength` setter never touches any field other than `datas`. -/
theorem setDataLength_fields (rd : RenderData) (pool : RecyclePool IRenderData)
    (n : Nat) :
    (rd.setDataLength pool n).1.material = rd.material ∧
    (rd.setDataLength pool n).1.vertexCount = rd.vertexCount ∧
    (rd.setDataLength pool n).1.indiceCount = rd.indiceCount ∧
    (rd.setDataLength pool n).1.uvDirty = rd.uvDirty ∧
    (rd.setDataLength pool n).1.vertDirty = rd.vertDirty ∧
    (rd.setDataLength pool n).1.indices = rd.indices ∧
    (rd.setDataLength pool n).1.pivotX = rd.pivotX ∧
    (rd.setDataLength pool n).1.pivotY = rd.pivotY ∧
    (rd.setDataLength pool n).1.width = rd.width ∧
    (rd.setDataLength pool n).1.height = rd.height := by
  unfold RenderData.setDataLength
  split <;> exact ⟨rfl, rfl, rfl, rfl, rfl, rfl, rfl, rfl, rfl, rfl⟩

/-- When some parameter differs, `updateSizeNPivot` stores all four and
raises `vertDirty`. -/
theorem updateSizeNPivot_of_ne (rd : RenderData) (w ht px py : Int)
    (hd : w ≠ rd.width ∨ ht ≠ rd.height ∨ px ≠ rd.pivotX ∨ py ≠ rd.pivotY) :
    rd.updateSizeNPivot w ht px py =
      { rd with
        width := w
        height := ht
        pivotX := px
        pivotY := py
        vertDirty := true } := by
  simp only [RenderData.updateSizeNPivot]
  rw [if_pos hd]

/-- When all four parameters equal the stored values, `updateSizeNPivot`
returns the state unchanged. -/
theorem updateSizeNPivot_of_eq (rd : RenderData) (w ht px py : Int)
    (h1 : w = rd.width) (h2 : ht = rd.height) (h3 : px = rd.pivotX)
    (h4 : py = rd.pivotY) :
    rd.updateSizeNPivot w ht px py = rd := by
  simp only [RenderData.updateSizeNPivot]
  rw [if_neg (by simp [h1, h2, h3, h4])]

/-! ### Claims -/

/-- C1: the claim states that after assigning `dataLength := N` the length
of `datas` is exactly `N` in all three cases.  This fails on the code for
the shrinking case: from `datas.length = 2`, assigning `dataLength := 1`
leaves `datas.length = 2` — the shrink loop's first `splice` happens at
index equal to the old length and removes nothing, so one removal is
always lost. -/
theorem C1_setLength_shrink_wrong_length :
    (rdTwo.setDataLength dp2 1).1.datas.length ≠ 1 ∧
    (rdTwo.setDataLength dp2 1).1.datas.length = 2 ∧
    rdTwo.datas.length = 2 := by decide

/-- C2: the claim states that shrinking from `M` to `N < M` removes
exactly `M − N` records from `datas` and shrinks the vertex-record pool by
`M − N`.  On the code, shrinking from `M = 2` to `N = 0` with pool count 2
removes only one record (final `datas.length = 1`) and shrinks the pool by
only one (final count 1): the first iteration releases at index `M`, which
is outside both the array and the pool's live region. -/
theorem C2_shrink_wrong_counts :
    (rdTwo.setDataLength dp2 0).1.datas.length = 1 ∧
    (rdTwo.setDataLength dp2 0).2.count = 1 ∧
    rdTwo.datas.length = 2 ∧
    dp2.count = 2 := by decide

/-- C3: `updateSizeNPivot` stores all four parameters and raises
`vertDirty` when any parameter differs from the stored value; it changes
nothing when all four are equal; it never modifies `uvDirty`; and a
repeated call with identical arguments is a no-op. -/
theorem C3_updateSizeNPivot_spec (rd : RenderData) (w ht px py : Int) :
    ((w ≠ rd.width ∨ ht ≠ rd.height ∨ px ≠ rd.pivotX ∨ py ≠ rd.pivotY) →
        (rd.updateSizeNPivot w ht px py).width = w ∧
        (rd.updateSizeNPivot w ht px py).height = ht ∧
        (rd.updateSizeNPivot w ht px py).pivotX = px ∧
        (rd.updateSizeNPivot w ht px py).pivotY = py ∧
        (rd.updateSizeNPivot w ht px py).vertDirty = true) ∧
    ((w = rd.width ∧ ht = rd.height ∧ px = rd.pivotX ∧ py = rd.pivotY) →
        rd.updateSizeNPivot w ht px py = rd) ∧
    ((rd.updateSizeNPivot w ht px py).uvDirty = rd.uvDirty) ∧
    ((rd.updateSizeNPivot w ht px py).updateSizeNPivot w ht px py =
        rd.updateSizeNPivot w ht px py) := by
  refine ⟨fun hd => ?_, fun he => updateSizeNPivot_of_eq rd w ht px py
    he.1 he.2.1 he.2.2.1 he.2.2.2, ?_, ?_⟩
  · rw [updateSizeNPivot_of_ne rd w ht px py hd]
    exact ⟨rfl, rfl, rfl, rfl, rfl⟩
  · by_cases hd : w ≠ rd.width ∨ ht ≠ rd.height ∨ px ≠ rd.pivotX ∨ py ≠ rd.pivotY
    · rw [updateSizeNPivot_of_ne rd w ht px py hd]
    · push_neg at hd
      rw [updateSizeNPivot_of_eq rd w ht px py hd.1 hd.2.1 hd.2.2.1 hd.2.2.2]
  · by_cases hd : w ≠ rd.width ∨ ht ≠ rd.height ∨ px ≠ rd.pivotX ∨ py ≠ rd.pivotY
    · rw [updateSizeNPivot_of_ne rd w ht px py hd]
      exact updateSizeNPivot_of_eq _ w ht px py rfl rfl rfl rfl
    · push_neg at hd
      rw [updateSizeNPivot_of_eq rd w ht px py hd.1 hd.2.1 hd.2.2.1 hd.2.2.2,
        updateSizeNPivot_of_eq rd w ht px py hd.1 hd.2.1 hd.2.2.1 hd.2.2.2]

/-- C3 witness: on the fresh instance, changing the size to 10×10 raises
`vertDirty` and leaves `uvDirty` at its stored value, and a call with the
stored values is the identity. -/
theorem C3_updateSizeNPivot_witness :
    ((RenderData.new.updateSizeNPivot 10 10 0 0).vertDirty = true) ∧
    (RenderData.new.updateSizeNPivot 0 0 0 0 = RenderData.new) ∧
    ((RenderData.new.updateSizeNPivot 10 10 0 0).uvDirty = RenderData.new.uvDirty) := by
  refine ⟨((C3_updateSizeNPivot_spec RenderData.new 10 10 0 0).1
      (Or.inl (by decide))).2.2.2.2,
    (C3_updateSizeNPivot_spec RenderData.new 0 0 0 0).2.1 ⟨rfl, rfl, rfl, rfl⟩,
    (C3_updateSizeNPivot_spec RenderData.new 10 10 0 0).2.2.1⟩

/-- C4: after `clear()` the instance has empty `datas` and `indices`, zero
pivot and size, both dirty flags raised, no material and zero counts,
whatever the prior state; and `clear` is idempotent. -/
theorem C4_clear_spec (rd : RenderData) :
    rd.clear.datas = [] ∧
    rd.clear.indices = [] ∧
    rd.clear.pivotX = 0 ∧
    rd.clear.pivotY = 0 ∧
    rd.clear.width = 0 ∧
    rd.clear.height = 0 ∧
    rd.clear.uvDirty = true ∧
    rd.clear.vertDirty = true ∧
    rd.clear.material = none ∧
    rd.clear.vertexCount = 0 ∧
    rd.clear.indiceCount = 0 ∧
    rd.clear.clear = rd.clear :=
  ⟨rfl, rfl, rfl, rfl, rfl, rfl, rfl, rfl, rfl, rfl, rfl, rfl⟩

/-- C7: assigning the `dataLength` setter mutates only the `datas`
sequence: the dirty flags, `indices`, pivot, size, `material` and both
counts are unchanged for every starting state, pool state and target
length. -/
theorem C7_setLength_only_datas (rd : RenderData) (pool : RecyclePool IRenderData)
    (n : Nat) :
    (rd.setDataLength pool n).1.uvDirty = rd.uvDirty ∧
    (rd.setDataLength pool n).1.vertDirty = rd.vertDirty ∧
    (rd.setDataLength pool n).1.indices = rd.indices ∧
    (rd.setDataLength pool n).1.pivotX = rd.pivotX ∧
    (rd.setDataLength pool n).1.pivotY = rd.pivotY ∧
    (rd.setDataLength pool n).1.width = rd.width ∧
    (rd.setDataLength pool n).1.height = rd.height ∧
    (rd.setDataLength pool n).1.material = rd.material ∧
    (rd.setDataLength pool n).1.vertexCount = rd.vertexCount ∧
    (rd.setDataLength pool n).1.indiceCount = rd.indiceCount := by
  obtain ⟨h1, h2, h3, h4, h5, h6, h7, h8, h9, h10⟩ := setDataLength_fields rd pool n
  exact ⟨h4, h5, h6, h7, h8, h9, h10, h1, h2, h3⟩

/-! ### List helpers -/

/-- Reading back the position just written by `set`. -/
theorem getD_set_self {α : Type} (l : List α) (i : Nat) (v d : α)
    (h : i < l.length) : (l.set i v).getD i d = v := by
  rw [List.getD_eq_getElem _ _ (by simpa using h)]
  exact List.getElem_set_self (by simpa using h)

/-- `getD` at an in-range position does not depend on the default. -/
theorem getD_default_irrel {α : Type} (l : List α) (i : Nat) (d d' : α)
    (h : i < l.length) : l.getD i d = l.getD i d' := by
  rw [List.getD_eq_getElem _ _ h, List.getD_eq_getElem _ _ h]

/-- A `getD` read is an element of the list or the default. -/
theorem getD_mem_or {α : Type} (l : List α) (n : Nat) (d : α) :
    l.getD n d ∈ l ∨ l.getD n d = d := by
  by_cases h : n < l.length
  · left
    rw [List.getD_eq_getElem _ _ h]
    exact List.getElem_mem h
  · right
    exact List.getD_eq_default _ _ (not_lt.mp h)

/-! ### Pool lemmas -/

/-- Acquisition always grows the live count by one. -/
theorem pool_add_count {α : Type} (p : RecyclePool α) :
    (RecyclePool.add p).2.count = p.count + 1 := by
  unfold RecyclePool.add
  split <;> rfl

/-- After an acquisition the old live count is a valid backing index. -/
theorem pool_add_lt_length {α : Type} (p : RecyclePool α)
    (hp : p.count ≤ p.data.length) :
    p.count < (RecyclePool.add p).2.data.length := by
  unfold RecyclePool.add
  split
  next h => simpa using h
  next h =>
    simp only [List.length_append, List.length_cons, List.length_nil]
    omega

/-- Acquisition preserves the live-count-within-capacity invariant. -/
theorem pool_add_inv {α : Type} (p : RecyclePool α)
    (hp : p.count ≤ p.data.length) :
    (RecyclePool.add p).2.count ≤ (RecyclePool.add p).2.data.length := by
  have h1 := pool_add_count p
  have h2 := pool_add_lt_length p hp
  omega

/-- With spare capacity, acquisition returns the stored element at
position `count` and leaves the backing storage untouched. -/
theorem pool_add_fst_of_lt {α : Type} (p : RecyclePool α) (d : α)
    (h : p.count < p.data.length) :
    (RecyclePool.add p).1 = p.data.getD p.count d := by
  unfold RecyclePool.add
  rw [if_pos h]
  exact getD_default_irrel _ _ _ _ h

/-- With spare capacity, acquisition leaves the backing storage as it is. -/
theorem pool_add_snd_of_lt {α : Type} (p : RecyclePool α)
    (h : p.count < p.data.length) :
    (RecyclePool.add p).2.data = p.data := by
  unfold RecyclePool.add
  rw [if_pos h]

/-- The element returned by acquisition is the one stored at position
`count` of the post-acquisition backing storage. -/
theorem pool_add_returns_getD {α : Type} (p : RecyclePool α) (d : α)
    (hp : p.count ≤ p.data.length) :
    (RecyclePool.add p).2.data.getD p.count d = (RecyclePool.add p).1 := by
  unfold RecyclePool.add
  split
  next h => exact getD_default_irrel _ _ _ _ h
  next h =>
    have hc : p.count = p.data.length := le_antisymm hp (not_lt.mp h)
    show (p.data ++ [p.fn]).getD p.count d = p.fn
    rw [hc, List.getD_append_right _ _ _ _ (le_refl _)]
    simp

/-- Acquisition never modifies an existing backing slot. -/
theorem pool_add_preserves_getD {α : Type} (p : RecyclePool α) (d : α)
    (j : Nat) (hj : j < p.data.length) :
    (RecyclePool.add p).2.data.getD j d = p.data.getD j d := by
  unfold RecyclePool.add
  split
  next => rfl
  next => exact List.getD_append _ _ _ _ hj

/-- The pre-existing prefix of the backing storage is unchanged by
acquisition. -/
theorem pool_add_take {α : Type} (p : RecyclePool α) :
    (RecyclePool.add p).2.data.take p.data.length = p.data := by
  unfold RecyclePool.add
  split
  next =>
    show p.data.take p.data.length = p.data
    exact List.take_length p.data
  next =>
    show (p.data ++ [p.fn]).take p.data.length = p.data
    exact List.take_left p.data [p.fn]

/-- Releasing a live slot shrinks the live count by one. -/
theorem remove_count (p : RecyclePool RenderData) (idx : Nat) (h : idx < p.count) :
    (RenderData.remove p idx).count = p.count - 1 := by
  simp only [RenderData.remove, RecyclePool.removeAt]
  rw [if_neg (not_le.mpr h)]

/-- Releasing a slot never changes the backing storage's length. -/
theorem remove_data_length (p : RecyclePool RenderData) (idx : Nat) :
    (RenderData.remove p idx).data.length = p.data.length := by
  simp only [RenderData.remove, RecyclePool.removeAt]
  split <;> simp [List.length_set]

/-- After releasing a live slot, the released instance is retained in the
backing storage at position `count - 1`, in the cleared state. -/
theorem remove_slot_cleared (p : RecyclePool RenderData) (idx : Nat)
    (d : RenderData) (h : idx < p.count) (hp : p.count ≤ p.data.length) :
    (RenderData.remove p idx).data.getD (p.count - 1) d = RenderData.new := by
  simp only [RenderData.remove, RecyclePool.removeAt]
  rw [if_neg (not_le.mpr h)]
  rw [clear_eq_new]
  rw [getD_set_self]
  · rw [getD_set_self]
    omega
  · simp only [List.length_set]
    omega

/-- The static-handle view of acquisition: the returned `pooID` is the
live count before the acquisition. -/
theorem rd_add_pooID (p : RecyclePool RenderData) :
    (RenderData.add p).1.pooID = p.count := by
  show (RecyclePool.add p).2.count - 1 = p.count
  rw [pool_add_count]
  omega

/-- The acquire–release–acquire scenario: acquire a handle, release it
through the static `remove`, acquire again; the result is the second
handle. -/
def acquireReleaseAcquire (p : RecyclePool RenderData) : Handle :=
  (RenderData.add
    (RenderData.remove (RenderData.add p).2 (RenderData.add p).1.pooID)).1

/-- C5: the static `remove(pooID)` clears the instance stored at `pooID`
before taking the slot out of the pool (the cleared instance is retained
in the backing storage, and the live count drops by one); consequently,
after acquire–release–acquire the instance referenced by the second
handle is in the fully-cleared default state. -/
theorem C5_release_then_reuse (p : RecyclePool RenderData)
    (hp : p.count ≤ p.data.length) :
    (∀ idx, idx < p.count →
      (RenderData.remove p idx).data.getD (p.count - 1) RenderData.new =
        RenderData.new.clear ∧
      (RenderData.remove p idx).count = p.count - 1) ∧
    (acquireReleaseAcquire p).data = RenderData.new.clear ∧
    (acquireReleaseAcquire p).data.datas = [] ∧
    (acquireReleaseAcquire p).data.indices = [] ∧
    (acquireReleaseAcquire p).data.pivotX = 0 ∧
    (acquireReleaseAcquire p).data.pivotY = 0 ∧
    (acquireReleaseAcquire p).data.width = 0 ∧
    (acquireReleaseAcquire p).data.height = 0 ∧
    (acquireReleaseAcquire p).data.vertexCount = 0 ∧
    (acquireReleaseAcquire p).data.indiceCount = 0 ∧
    (acquireReleaseAcquire p).data.material = none ∧
    (acquireReleaseAcquire p).data.uvDirty = true ∧
    (acquireReleaseAcquire p).data.vertDirty = true := by
  have hmain : (acquireReleaseAcquire p).data = RenderData.new := by
    show (RenderData.add
      (RenderData.remove (RenderData.add p).2 (RenderData.add p).1.pooID)).1.data =
        RenderData.new
    rw [rd_add_pooID]
    show (RenderData.add
      (RenderData.remove (RecyclePool.add p).2 p.count)).1.data = RenderData.new
    have hA_count : (RecyclePool.add p).2.count = p.count + 1 := pool_add_count p
    have hA_inv : (RecyclePool.add p).2.count ≤ (RecyclePool.add p).2.data.length :=
      pool_add_inv p hp
    have hr_count :
        (RenderData.remove (RecyclePool.add p).2 p.count).count = p.count := by
      rw [remove_count _ _ (by omega)]
      omega
    have hr_len :
        (RenderData.remove (RecyclePool.add p).2 p.count).data.length =
          (RecyclePool.add p).2.data.length :=
      remove_data_length _ _
    have hr_lt : (RenderData.remove (RecyclePool.add p).2 p.count).count <
        (RenderData.remove (RecyclePool.add p).2 p.count).data.length := by
      omega
    have hr_slot :
        (RenderData.remove (RecyclePool.add p).2 p.count).data.getD
          ((RecyclePool.add p).2.count - 1)
          (RenderData.remove (RecyclePool.add p).2 p.count).fn = RenderData.new :=
      remove_slot_cleared _ _ _ (by omega) hA_inv
    have hidx : (RecyclePool.add p).2.count - 1 = p.count := by omega
    rw [hidx] at hr_slot
    show (RecyclePool.add (RenderData.remove (RecyclePool.add p).2 p.count)).1 =
      RenderData.new
    rw [pool_add_fst_of_lt _ _ hr_lt]
    rw [hr_count]
    exact hr_slot
  refine ⟨fun idx hidx => ⟨?_, remove_count p idx hidx⟩, ?_, ?_, ?_, ?_, ?_, ?_,
    ?_, ?_, ?_, ?_, ?_, ?_⟩
  · exact (remove_slot_cleared p idx RenderData.new hidx hp).trans
      (clear_eq_new RenderData.new).symm
  all_goals (rw [hmain]; rfl)

/-- C5 witness: on the concrete pool `rp1` holding one live instance, the
released slot is retained cleared, and the acquire–release–acquire
scenario hands back a handle to a fully-cleared instance. -/
theorem C5_release_then_reuse_witness :
    ((RenderData.remove rp1 0).data.getD (rp1.count - 1) RenderData.new =
      RenderData.new.clear) ∧
    (acquireReleaseAcquire rp1).data = RenderData.new.clear ∧
    (acquireReleaseAcquire rp1).data.datas = [] ∧
    (acquireReleaseAcquire rp1).data.material = none := by
  obtain ⟨h1, h2, h3, _, _, _, _, _, _, _, hmat, _, _⟩ :=
    C5_release_then_reuse rp1 (by decide)
  exact ⟨(h1 0 (by decide)).1, h2, h3, hmat⟩

/-- C6: the static `add` returns a handle whose `pooID` is the pool's
length minus one at the moment of acquisition, and whose `data` is the
instance stored at that backing position. -/
theorem C6_add_handle (p : RecyclePool RenderData)
    (hp : p.count ≤ p.data.length) :
    (RenderData.add p).1.pooID = (RenderData.add p).2.length - 1 ∧
    (RenderData.add p).1.pooID + 1 = (RenderData.add p).2.length ∧
    (RenderData.add p).2.data.getD (RenderData.add p).1.pooID RenderData.new =
      (RenderData.add p).1.data := by
  refine ⟨rfl, ?_, ?_⟩
  · rw [rd_add_pooID]
    show p.count + 1 = (RecyclePool.add p).2.count
    rw [pool_add_count]
  · rw [rd_add_pooID]
    exact pool_add_returns_getD p RenderData.new hp

/-- C6 witness: concrete acquisition from `rp1`. -/
theorem C6_add_handle_witness :
    (RenderData.add rp1).1.pooID = (RenderData.add rp1).2.length - 1 ∧
    (RenderData.add rp1).1.pooID + 1 = (RenderData.add rp1).2.length ∧
    (RenderData.add rp1).2.data.getD (RenderData.add rp1).1.pooID RenderData.new =
      (RenderData.add rp1).1.data :=
  C6_add_handle rp1 (by decide)

/-- C9: the static `add` performs no reset: when it reuses a stored slot,
the handle's `data` is exactly the instance as the pool stored it and the
backing storage is untouched; in every case the pre-existing prefix of
the backing storage is returned unmodified. -/
theorem C9_add_no_reset (p : RecyclePool RenderData) :
    (p.count < p.data.length →
      (RenderData.add p).1.data = p.data.getD p.count RenderData.new ∧
      (RenderData.add p).2.data = p.data) ∧
    (RenderData.add p).2.data.take p.data.length = p.data := by
  refine ⟨fun h => ⟨?_, ?_⟩, ?_⟩
  · exact pool_add_fst_of_lt p RenderData.new h
  · exact pool_add_snd_of_lt p h
  · exact pool_add_take p

/-- C9 witness: concrete acquisition from `rp1`, which has spare
capacity, hands back the stored instance with no reset. -/
theorem C9_add_no_reset_witness :
    (RenderData.add rp1).1.data = rp1.data.getD rp1.count RenderData.new ∧
    (RenderData.add rp1).2.data = rp1.data ∧
    (RenderData.add rp1).2.data.take rp1.data.length = rp1.data :=
  ⟨((C9_add_no_reset rp1).1 (by decide)).1, ((C9_add_no_reset rp1).1 (by decide)).2,
    (C9_add_no_reset rp1).2⟩

/-- `updateSizeNPivot` never touches the `indices` sequence. -/
theorem updateSizeNPivot_indices (rd : RenderData) (w ht px py : Int) :
    (rd.updateSizeNPivot w ht px py).indices = rd.indices := by
  unfold RenderData.updateSizeNPivot
  split <;> rfl

/-- Every element of the backing storage after an acquisition is either
a previously stored instance or the factory product. -/
theorem pool_add_mem {α : Type} (p : RecyclePool α) (x : α)
    (hx : x ∈ (RecyclePool.add p).2.data) : x ∈ p.data ∨ x = p.fn := by
  unfold RecyclePool.add at hx
  split at hx
  next => exact Or.inl hx
  next =>
    rcases List.mem_append.mp hx with h | h
    · exact Or.inl h
    · exact Or.inr (List.mem_singleton.mp h)

/-- The element handed out by an acquisition is either a previously
stored instance or the factory product. -/
theorem pool_add_fst_mem {α : Type} (p : RecyclePool α) :
    (RecyclePool.add p).1 ∈ p.data ∨ (RecyclePool.add p).1 = p.fn := by
  unfold RecyclePool.add
  split
  next => exact getD_mem_or p.data p.count p.fn
  next => exact Or.inr rfl

/-- Every element of the backing storage after a pool-level removal is
either a previously stored element or the factory product: the removal
only rearranges the storage. -/
theorem pool_removeAt_mem {α : Type} (p : RecyclePool α) (idx : Nat) (x : α)
    (hx : x ∈ (RecyclePool.removeAt p idx).data) : x ∈ p.data ∨ x = p.fn := by
  unfold RecyclePool.removeAt at hx
  split at hx
  next => exact Or.inl hx
  next =>
    rcases List.mem_or_eq_of_mem_set hx with hx1 | hx2
    · rcases List.mem_or_eq_of_mem_set hx1 with hx3 | hx4
      · exact Or.inl hx3
      · rw [hx4]
        exact getD_mem_or _ _ _
    · rw [hx2]
      exact getD_mem_or _ _ _

/-- Every element of the backing storage after the static `remove` is a
previously stored instance, the freshly cleared instance, or the factory
product: `remove` never writes a flag-lowered variant of anything. -/
theorem remove_mem (p : RecyclePool RenderData) (idx : Nat) (x : RenderData)
    (hx : x ∈ (RenderData.remove p idx).data) :
    x ∈ p.data ∨ x = RenderData.new ∨ x = p.fn := by
  rcases pool_removeAt_mem
      { p with data := p.data.set idx ((p.data.getD idx RenderData.new).clear) }
      idx x hx with h | h
  · rcases List.mem_or_eq_of_mem_set h with h2 | h2
    · exact Or.inl h2
    · exact Or.inr (Or.inl (h2.trans (clear_eq_new _)))
  · exact Or.inr (Or.inr h)

/-- A pool state holding one live instance with both dirty flags
lowered, as a mixed-flag starting state for the static operations. -/
def rdOff : RenderData := { uvDirty := false, vertDirty := false }

/-- A `RenderData` pool whose single live instance has lowered flags. -/
def rpOff : RecyclePool RenderData :=
  { fn := RenderData.new, data := [rdOff], count := 1 }

/-- C8: no operation of the core ever lowers a dirty flag, from any
starting state.  The `dataLength` setter preserves both flags exactly;
`updateSizeNPivot` preserves `uvDirty` and keeps `vertDirty` raised;
`clear` raises both.  The static `add` and `remove` never modify a
stored instance's flags: every instance stored (or handed out) after
`add` is a previously stored instance or the factory product, every
instance stored after `remove` is a previously stored instance, the
freshly cleared instance or the factory product, and therefore — the
factory producing raised flags — any instance newly appearing in the
storage has both flags raised. -/
theorem C8_never_clears_dirty :
    (∀ (rd : RenderData) (pool : RecyclePool IRenderData) (n : Nat),
      (rd.setDataLength pool n).1.uvDirty = rd.uvDirty ∧
      (rd.setDataLength pool n).1.vertDirty = rd.vertDirty) ∧
    (∀ (rd : RenderData) (w ht px py : Int),
      (rd.updateSizeNPivot w ht px py).uvDirty = rd.uvDirty ∧
      (rd.vertDirty = true → (rd.updateSizeNPivot w ht px py).vertDirty = true)) ∧
    (∀ rd : RenderData, rd.clear.uvDirty = true ∧ rd.clear.vertDirty = true) ∧
    (∀ p : RecyclePool RenderData,
      ((RenderData.add p).1.data ∈ p.data ∨ (RenderData.add p).1.data = p.fn) ∧
      ∀ x ∈ (RenderData.add p).2.data, x ∈ p.data ∨ x = p.fn) ∧
    (∀ (p : RecyclePool RenderData) (idx : Nat),
      ∀ x ∈ (RenderData.remove p idx).data,
        x ∈ p.data ∨ x = RenderData.new ∨ x = p.fn) ∧
    (∀ (p : RecyclePool RenderData) (idx : Nat),
      p.fn.uvDirty = true → p.fn.vertDirty = true →
      (∀ x ∈ (RenderData.add p).2.data, x ∉ p.data →
        x.uvDirty = true ∧ x.vertDirty = true) ∧
      (∀ x ∈ (RenderData.remove p idx).data, x ∉ p.data →
        x.uvDirty = true ∧ x.vertDirty = true)) := by
  refine ⟨fun rd pool n => ?_, fun rd w ht px py => ⟨?_, ?_⟩, fun rd => ⟨rfl, rfl⟩,
    fun p => ⟨pool_add_fst_mem p, fun x hx => pool_add_mem p x hx⟩,
    fun p idx x hx => remove_mem p idx x hx,
    fun p idx hfu hfv => ⟨fun x hx hnot => ?_, fun x hx hnot => ?_⟩⟩
  · have hf := setDataLength_fields rd pool n
    exact ⟨hf.2.2.2.1, hf.2.2.2.2.1⟩
  · unfold RenderData.updateSizeNPivot
    split <;> rfl
  · intro hv
    unfold RenderData.updateSizeNPivot
    split
    next => rfl
    next => exact hv
  · rcases pool_add_mem p x hx with h | h
    · exact (hnot h).elim
    · rw [h]
      exact ⟨hfu, hfv⟩
  · rcases remove_mem p idx x hx with h | h | h
    · exact (hnot h).elim
    · rw [h]
      exact ⟨rfl, rfl⟩
    · rw [h]
      exact ⟨hfu, hfv⟩

/-- C8 witness: concrete instantiations of each conjunct; the static
parts are exercised on the mixed-flag pool `rpOff`, where the removal
stores the freshly cleared instance, a new element with both flags
raised. -/
theorem C8_never_clears_dirty_witness :
    ((RenderData.new.setDataLength dp2 3).1.uvDirty = RenderData.new.uvDirty) ∧
    ((RenderData.new.updateSizeNPivot 1 1 1 1).vertDirty = true) ∧
    (RenderData.new.clear.uvDirty = true) ∧
    ((RenderData.add rp1).1.data ∈ rp1.data ∨ (RenderData.add rp1).1.data = rp1.fn) ∧
    (RenderData.new ∈ rpOff.data ∨ RenderData.new = RenderData.new ∨
      RenderData.new = rpOff.fn) ∧
    (RenderData.new.uvDirty = true ∧ RenderData.new.vertDirty = true) :=
  ⟨(C8_never_clears_dirty.1 RenderData.new dp2 3).1,
    (C8_never_clears_dirty.2.1 RenderData.new 1 1 1 1).2 rfl,
    (C8_never_clears_dirty.2.2.1 RenderData.new).1,
    (C8_never_clears_dirty.2.2.2.1 rp1).1,
    C8_never_clears_dirty.2.2.2.2.1 rpOff 0 RenderData.new (by decide),
    (C8_never_clears_dirty.2.2.2.2.2 rpOff 0 rfl rfl).2 RenderData.new
      (by decide) (by decide)⟩

/-- The states of a single `RenderData` instance reachable through the
core's own operations, starting from a freshly constructed instance. -/
inductive ReachableRD : RenderData → Prop where
  | init : ReachableRD RenderData.new
  | setLen (rd : RenderData) (pool : RecyclePool IRenderData) (n : Nat) :
      ReachableRD rd → ReachableRD (rd.setDataLength pool n).1
  | updateStep (rd : RenderData) (w ht px py : Int) :
      ReachableRD rd → ReachableRD (rd.updateSizeNPivot w ht px py)
  | clearStep (rd : RenderData) : ReachableRD rd → ReachableRD rd.clear

/-- C10: in every state reachable through the core's operations the
`indices` sequence is empty — it starts empty, no operation appends to
it, and `clear` truncates it. -/
theorem C10_indices_always_empty (rd : RenderData) (h : ReachableRD rd) :
    rd.indices = [] := by
  induction h with
  | init => rfl
  | setLen rd pool n _ ih =>
      rw [(setDataLength_fields rd pool n).2.2.2.2.2.1]
      exact ih
  | updateStep rd w ht px py _ ih =>
      rw [updateSizeNPivot_indices]
      exact ih
  | clearStep rd _ => rfl

/-- C10 witness: the freshly constructed instance is reachable and has
empty `indices`. -/
theorem C10_indices_always_empty_witness : RenderData.new.indices = [] :=
  C10_indices_always_empty RenderData.new ReachableRD.init

/-! ### General characterization of the resize operation -/

/-- The grow loop appends exactly one record per iteration. -/
theorem growLoopAux_length (n : Nat) :
    ∀ (data : List IRenderData) (pool : RecyclePool IRenderData),
      (growLoopAux n data pool).1.length = data.length + n := by
  induction n with
  | zero => intro data pool; rfl
  | succ n ih =>
      intro data pool
      show (growLoopAux n (data ++ [(RecyclePool.add pool).1])
        (RecyclePool.add pool).2).1.length = data.length + (n + 1)
      rw [ih]
      simp only [List.length_append, List.length_cons, List.length_nil]
      omega

/-- The grow loop acquires exactly one pooled record per iteration. -/
theorem growLoopAux_count (n : Nat) :
    ∀ (data : List IRenderData) (pool : RecyclePool IRenderData),
      (growLoopAux n data pool).2.count = pool.count + n := by
  induction n with
  | zero => intro data pool; rfl
  | succ n ih =>
      intro data pool
      show (growLoopAux n (data ++ [(RecyclePool.add pool).1])
        (RecyclePool.add pool).2).2.count = pool.count + (n + 1)
      rw [ih, pool_add_count]
      omega

/-- Growing (or keeping) the length through the setter is correct: for a
target at or above the current length, `datas` ends at exactly the target
length. -/
theorem setDataLength_grow_length (rd : RenderData)
    (pool : RecyclePool IRenderData) (n : Nat) (h : rd.datas.length ≤ n) :
    (rd.setDataLength pool n).1.datas.length = n := by
  unfold RenderData.setDataLength
  by_cases he : rd.datas.length = n
  · rw [if_neg (by simpa using he)]
    exact he
  · rw [if_pos he]
    show (shrinkLoop (growLoop rd.datas pool rd.datas.length n).1
      (growLoop rd.datas pool rd.datas.length n).2 rd.datas.length n).1.length = n
    unfold shrinkLoop
    have h0 : rd.datas.length - n = 0 := by omega
    rw [h0]
    show (growLoop rd.datas pool rd.datas.length n).1.length = n
    unfold growLoop
    rw [growLoopAux_length]
    omega

/-- The shrink loop, entered with the loop counter one below the sequence
length, peels exactly one trailing element per iteration. -/
theorem shrinkLoopAux_take (n : Nat) :
    ∀ (data : List IRenderData) (pool : RecyclePool IRenderData) (i : Nat),
      data.length = i + 1 → n ≤ i + 1 →
      (shrinkLoopAux n data pool i).1 = data.take (i + 1 - n) := by
  induction n with
  | zero =>
      intro data pool i hlen _
      show data = data.take (i + 1 - 0)
      rw [Nat.sub_zero, ← hlen, List.take_length]
  | succ n ih =>
      intro data pool i hlen hle
      show (shrinkLoopAux n (data.eraseIdx i) (pool.removeAt i) (i - 1)).1 =
        data.take (i + 1 - (n + 1))
      have herase : data.eraseIdx i = data.take i := by
        rw [List.eraseIdx_eq_take_drop_succ]
        rw [List.drop_eq_nil_of_le (by omega), List.append_nil]
      rcases Nat.eq_zero_or_pos i with hi | hi
      · have hn : n = 0 := by omega
        subst hn
        subst hi
        show data.eraseIdx 0 = data.take (0 + 1 - 1)
        rw [herase]
      · have hlen' : (data.eraseIdx i).length = (i - 1) + 1 := by
          rw [herase, List.length_take]
          omega
        rw [ih (data.eraseIdx i) (pool.removeAt i) (i - 1) hlen' (by omega)]
        rw [herase, List.take_take]
        congr 1
        omega

/-- Shrinking through the setter is off by one: for a target strictly
below the current length, `datas` ends at the target length plus one —
the loop's first removal happens at an index equal to the old length and
removes nothing. -/
theorem setDataLength_shrink_length (rd : RenderData)
    (pool : RecyclePool IRenderData) (n : Nat) (h : n < rd.datas.length) :
    (rd.setDataLength pool n).1.datas.length = n + 1 := by
  unfold RenderData.setDataLength
  rw [if_pos (by omega)]
  show (shrinkLoop (growLoop rd.datas pool rd.datas.length n).1
    (growLoop rd.datas pool rd.datas.length n).2 rd.datas.length n).1.length = n + 1
  unfold growLoop
  have hg : n - rd.datas.length = 0 := by omega
  rw [hg]
  show (shrinkLoop rd.datas pool rd.datas.length n).1.length = n + 1
  unfold shrinkLoop
  have hf : rd.datas.length - n = (rd.datas.length - n - 1) + 1 := by omega
  rw [hf]
  show (shrinkLoopAux (rd.datas.length - n - 1) (rd.datas.eraseIdx rd.datas.length)
    (pool.removeAt rd.datas.length) (rd.datas.length - 1)).1.length = n + 1
  rw [List.eraseIdx_eq_self.mpr (le_refl _)]
  rw [shrinkLoopAux_take _ _ _ _ (by omega) (by omega)]
  rw [List.length_take]
  omega
